/-
Verification of the media-asset and video-editing backend.

The media-composition engine (`video_editing`) is exercised by the test
suite in `tests/components/video_editing_test.py`; its implementation
module is not part of the visible sources, so the composition functions
below are modelled from the specification and checked against the tests'
expectations.  The asset-persistence gateway (`asset_utils.py`,
`asset_models.py`) is embedded directly from its source; its external
collaborators (cloud storage, document store, settings, constants) are
abstracted as explicit parameters, mirroring the dependency-injection
parameters the source itself exposes.

Times and durations are modelled as rationals (`ℚ`); image dimensions as
naturals; file systems and stores as explicit functions; side effects as
explicit event traces returned alongside results.
-/
import Mathlib

namespace VideoEditing

/-- Modelled from the spec: `AudioOverlayDescriptor` (`media.AudioInput`
in the tests) — source path, start time in seconds, optional duration. -/
structure AudioInput where
  path : String
  start_time : ℚ
  duration : Option ℚ := none
deriving DecidableEq

/-- Modelled from the spec: `calculate_audio_duration(index, audio_inputs,
total_output_duration)` — pure, no I/O.  If the indexed input's duration is
set, return it unchanged; else the duration is (start time of the next
input if it exists, else the total output duration) minus the indexed
input's start time.  `none` models the out-of-range index error. -/
def calculate_audio_duration (index : ℕ) (audio_inputs : List AudioInput)
    (total_output_duration : ℚ) : Option ℚ :=
  match audio_inputs[index]? with
  | none => none
  | some a =>
      match a.duration with
      | some d => some d
      | none =>
          let next_start :=
            match audio_inputs[index + 1]? with
            | some b => b.start_time
            | none => total_output_duration
          some (next_start - a.start_time)

/-- Modelled from the spec: an in-memory audio clip handle, trimmed to its
resolved duration and tagged with its start offset on the output timeline. -/
structure AudioClip where
  path : String
  start : ℚ
  duration : ℚ
deriving DecidableEq

/-- Modelled from the spec: `load_audio_clips(audio_inputs,
total_output_duration)` — for each descriptor in order, load the source,
trim/extend it to the duration from `calculate_audio_duration`, and tag it
with its start offset; the returned order matches the input order. -/
def load_audio_clips (audio_inputs : List AudioInput)
    (total_output_duration : ℚ) : List AudioClip :=
  (List.range audio_inputs.length).map fun index =>
    { path := match audio_inputs[index]? with
        | some a => a.path
        | none => ""
      start := match audio_inputs[index]? with
        | some a => a.start_time
        | none => 0
      duration :=
        (calculate_audio_duration index audio_inputs total_output_duration).getD 0 }

/-- Modelled from the spec: the dimensions of an in-memory image handle. -/
structure ImageData where
  width : ℕ
  height : ℕ
deriving DecidableEq

/-- Modelled from the spec: the media content found at a path — an image
with its dimensions, or a video/audio file with its duration in seconds. -/
inductive MediaFile where
  | image (data : ImageData)
  | video (duration : ℚ)
  | audio (duration : ℚ)
deriving DecidableEq

/-- The filesystem the composition engine reads from: a map from paths to
media files, `none` when no file exists at the path. -/
structure MediaFS where
  files : String → Option MediaFile

/-- The error taxonomy of the composition engine: missing-file errors
(`FileNotFoundError`) and the empty-input invalid-argument errors
(`ValueError`, one per entry point, matching the tests' messages). -/
inductive VideoError where
  | fileNotFound (path : String)
  | noImageInputs
  | noVideoInputs
  | noAudioInputs
deriving DecidableEq

/-- A file-I/O side effect of a composition call. -/
inductive IOEvent where
  | readFile (path : String)
  | writeFile (path : String)
deriving DecidableEq

/-- Horizontal named anchor of an image overlay. -/
inductive HAnchor where
  | left
  | center
  | right
deriving DecidableEq

/-- Vertical named anchor of an image overlay. -/
inductive VAnchor where
  | top
  | center
  | bottom
deriving DecidableEq

/-- Modelled from the spec: an overlay target position — a pair of named
anchors or explicit pixel coordinates. -/
inductive Position where
  | anchors (h : HAnchor) (v : VAnchor)
  | pixels (x y : ℤ)
deriving DecidableEq

/-- Modelled from the spec: `ImageOverlayDescriptor` (`media.ImageInput`
in the tests) — source path, target position, optional duration, optional
target height. -/
structure ImageInput where
  path : String
  position : Position
  duration : Option ℚ := none
  height : Option ℕ := none
deriving DecidableEq

/-- Modelled from the spec: `VideoSegmentDescriptor` (`media.VideoInput`
in the tests) — a source path to a video file. -/
structure VideoInput where
  path : String
deriving DecidableEq

/-- Modelled from the spec: `check_file_exists(path)` fails with a
`FileNotFoundError`-equivalent when the path does not resolve to a file. -/
def check_file_exists (fs : MediaFS) (path : String) : Except VideoError Unit :=
  match fs.files path with
  | some _ => .ok ()
  | none => .error (.fileNotFound path)

/-- Modelled from the spec: the rescaling arithmetic — target width is the
original width scaled by `target_height / original_height`, rounded to the
nearest integer; the height becomes `target_height`. -/
def rescale_dims (d : ImageData) (target_height : ℕ) : ImageData :=
  { width := (round (((d.width : ℚ) * target_height) / (d.height : ℚ))).toNat
    height := target_height }

/-- Modelled from the spec: `rescale_image(path, target_height)` loads the
image at `path` and returns a resized in-memory handle preserving the
aspect ratio; no side effects beyond the read (it is a function of the
file's content only). -/
def rescale_image (fs : MediaFS) (path : String) (target_height : ℕ) :
    Except VideoError ImageData :=
  match fs.files path with
  | some (.image d) => .ok (rescale_dims d target_height)
  | _ => .error (.fileNotFound path)

/-- Modelled from the spec: a positioned, time-bounded image overlay clip
anchored at timeline start 0. -/
structure OverlayClip where
  image : ImageData
  position : Position
  start : ℚ
  duration : ℚ
deriving DecidableEq

/-- Modelled from the spec: build one overlay clip from a descriptor —
validate existence, optionally rescale, compute the effective duration
(the explicit value if given, else the base video's total duration).  A
zero or near-zero duration is not an error. -/
def load_image_clip (fs : MediaFS) (video_duration : ℚ) (input : ImageInput) :
    Except VideoError OverlayClip :=
  match fs.files input.path with
  | some (.image d) =>
      let img := match input.height with
        | some target => rescale_dims d target
        | none => d
      .ok { image := img, position := input.position, start := 0,
            duration := input.duration.getD video_duration }
  | _ => .error (.fileNotFound input.path)

/-- Modelled from the spec: build the overlay clips for each descriptor in
input order, recording the image reads performed; a missing file aborts
before that file is read. -/
def load_image_clips (fs : MediaFS) (video_duration : ℚ) :
    List ImageInput → List IOEvent × Except VideoError (List OverlayClip)
  | [] => ([], .ok [])
  | input :: rest =>
      match load_image_clip fs video_duration input with
      | .error e => ([], .error e)
      | .ok c =>
          let (tr, res) := load_image_clips fs video_duration rest
          (.readFile input.path :: tr,
           match res with
           | .error e => .error e
           | .ok cs => .ok (c :: cs))

/-- Modelled from the spec: `add_image_clips_to_video(base_video_path,
image_inputs, output_path)` — fails with an invalid-argument error before
any I/O if `image_inputs` is empty; otherwise reads the base video, builds
one overlay clip per descriptor in input order (base video first, overlays
stacked above in the order given), and writes the composited result to
`output_path`.  The returned clip list is the overlay stack, bottom to
top. -/
def add_image_clips_to_video (fs : MediaFS) (base_video_path : String)
    (image_inputs : List ImageInput) (output_path : String) :
    List IOEvent × Except VideoError (List OverlayClip) :=
  if image_inputs.isEmpty then
    ([], .error .noImageInputs)
  else
    match fs.files base_video_path with
    | some (.video video_duration) =>
        let (tr, res) := load_image_clips fs video_duration image_inputs
        match res with
        | .ok clips =>
            (.readFile base_video_path :: tr ++ [.writeFile output_path], .ok clips)
        | .error e => (.readFile base_video_path :: tr, .error e)
    | _ => ([], .error (.fileNotFound base_video_path))

/-- Modelled from the spec: load each video segment in order, recording
the reads and collecting the segment durations. -/
def load_video_durations (fs : MediaFS) :
    List VideoInput → List IOEvent × Except VideoError (List ℚ)
  | [] => ([], .ok [])
  | input :: rest =>
      match fs.files input.path with
      | some (.video d) =>
          let (tr, res) := load_video_durations fs rest
          (.readFile input.path :: tr,
           match res with
           | .error e => .error e
           | .ok ds => .ok (d :: ds))
      | _ => ([], .error (.fileNotFound input.path))

/-- Modelled from the spec: `concatenate_video_clips(video_inputs,
output_path)` — fails with an invalid-argument error before any I/O if
`video_inputs` is empty; otherwise concatenates the segments end-to-end
(no gaps) and writes one continuous video whose duration is the sum of
the input durations, returned here as the result. -/
def concatenate_video_clips (fs : MediaFS) (video_inputs : List VideoInput)
    (output_path : String) : List IOEvent × Except VideoError ℚ :=
  if video_inputs.isEmpty then
    ([], .error .noVideoInputs)
  else
    let (tr, res) := load_video_durations fs video_inputs
    match res with
    | .ok ds => (tr ++ [.writeFile output_path], .ok ds.sum)
    | .error e => (tr, .error e)

/-- Modelled from the spec: existence check over the audio descriptors, in
order, recording the audio reads; a missing file aborts. -/
def check_audio_inputs (fs : MediaFS) :
    List AudioInput → List IOEvent × Except VideoError Unit
  | [] => ([], .ok ())
  | input :: rest =>
      match fs.files input.path with
      | some (.audio _) =>
          let (tr, res) := check_audio_inputs fs rest
          (.readFile input.path :: tr, res)
      | _ => ([], .error (.fileNotFound input.path))

/-- Modelled from the spec: `add_audio_clips_to_video(base_video_path,
audio_inputs, output_path)` — fails with an invalid-argument error before
any I/O if `audio_inputs` is empty; otherwise loads the base video,
derives the total output duration from it, loads all audio clips via
`load_audio_clips`, layers them onto the video's audio track at their
start offsets, and writes the result.  The returned clip list is the
mixed-in audio layer. -/
def add_audio_clips_to_video (fs : MediaFS) (base_video_path : String)
    (audio_inputs : List AudioInput) (output_path : String) :
    List IOEvent × Except VideoError (List AudioClip) :=
  if audio_inputs.isEmpty then
    ([], .error .noAudioInputs)
  else
    match fs.files base_video_path with
    | some (.video total_output_duration) =>
        let (tr, res) := check_audio_inputs fs audio_inputs
        match res with
        | .ok _ =>
            (.readFile base_video_path :: tr ++ [.writeFile output_path],
             .ok (load_audio_clips audio_inputs total_output_duration))
        | .error e => (.readFile base_video_path :: tr, .error e)
    | _ => ([], .error (.fileNotFound base_video_path))

/-- Modelled from the spec: the `AudioOverlayDescriptor` invariant — the
start time lies within `[0, output_duration)`. -/
def audio_start_time_invariant (output_duration : ℚ) (input : AudioInput) : Prop :=
  0 ≤ input.start_time ∧ input.start_time < output_duration

/-- A sample filesystem mirroring the test fixtures: a 5-second base
video, 200×100 images, 4-second audio files. -/
def sample_fs : MediaFS where
  files p :=
    if p = "base.mp4" then some (.video 5)
    else if p = "image0.png" then some (.image ⟨200, 100⟩)
    else if p = "a0.mp3" then some (.audio 4)
    else if p = "a1.mp3" then some (.audio 4)
    else none

end VideoEditing

namespace VideoEditing

/-- `calculate_audio_duration` at a valid index, unfolded. -/
theorem calculate_audio_duration_eq (audio_inputs : List AudioInput) (index : ℕ)
    (total_output_duration : ℚ) (h : index < audio_inputs.length) :
    calculate_audio_duration index audio_inputs total_output_duration =
      some (match (audio_inputs.get ⟨index, h⟩).duration with
        | some d => d
        | none =>
            (match audio_inputs[index + 1]? with
             | some b => b.start_time
             | none => total_output_duration)
            - (audio_inputs.get ⟨index, h⟩).start_time) := by
  unfold calculate_audio_duration
  rw [List.getElem?_eq_getElem h]
  rcases hd : (audio_inputs.get ⟨index, h⟩).duration with _ | d <;>
    simp only [List.get_eq_getElem] at hd <;> simp [hd]

/-- C1: at every valid index, `calculate_audio_duration` returns the
descriptor's duration unchanged when it is set, and otherwise the gap from
its start time to the next descriptor's start time (or to the total output
duration when there is no next descriptor); in particular, for two inputs
with start times 0 and 3 and no durations it returns 3 and 3 over a total
of 6, and 3 and 4 over a total of 7. -/
theorem calculate_audio_duration_correct (audio_inputs : List AudioInput)
    (index : ℕ) (total_output_duration : ℚ)
    (h : index < audio_inputs.length) :
    (calculate_audio_duration index audio_inputs total_output_duration =
      some ((audio_inputs.get ⟨index, h⟩).duration.getD
        ((if h2 : index + 1 < audio_inputs.length then
            (audio_inputs.get ⟨index + 1, h2⟩).start_time
          else total_output_duration)
          - (audio_inputs.get ⟨index, h⟩).start_time)))
    ∧ (∀ p q : String,
        calculate_audio_duration 0 [⟨p, 0, none⟩, ⟨q, 3, none⟩] 6 = some 3 ∧
        calculate_audio_duration 1 [⟨p, 0, none⟩, ⟨q, 3, none⟩] 6 = some 3 ∧
        calculate_audio_duration 0 [⟨p, 0, none⟩, ⟨q, 3, none⟩] 7 = some 3 ∧
        calculate_audio_duration 1 [⟨p, 0, none⟩, ⟨q, 3, none⟩] 7 = some 4) := by
  constructor
  · rw [calculate_audio_duration_eq audio_inputs index total_output_duration h]
    rcases hd : (audio_inputs.get ⟨index, h⟩).duration with _ | d
    · by_cases h2 : index + 1 < audio_inputs.length
      · simp [hd, h2, List.getElem?_eq_getElem h2, List.get_eq_getElem]
      · simp [hd, h2, List.getElem?_eq_none_iff.mpr (Nat.le_of_not_lt h2)]
    · simp [hd]
  · intro p q
    refine ⟨?_, ?_, ?_, ?_⟩ <;>
      simp [calculate_audio_duration] <;> norm_num

/-- Witness for C1: the theorem applied at a concrete list, index and
total, its hypothesis discharged there. -/
theorem calculate_audio_duration_correct_witness :
    calculate_audio_duration 0 [⟨"a0", 0, some 5⟩, ⟨"a1", 3, none⟩] 6 = some 5 := by
  have h := (calculate_audio_duration_correct
    [⟨"a0", 0, some 5⟩, ⟨"a1", 3, none⟩] 0 6 (by decide)).1
  simpa using h

/-- `load_audio_clips` keeps one entry per input. -/
theorem load_audio_clips_length (audio_inputs : List AudioInput) (total : ℚ) :
    (load_audio_clips audio_inputs total).length = audio_inputs.length := by
  simp [load_audio_clips]

/-- C4: for every non-empty list of audio inputs and every total output
duration, `load_audio_clips` returns exactly one entry per input, in input
order; each entry carries the descriptor's declared start time and the
duration computed by `calculate_audio_duration` at that index. -/
theorem load_audio_clips_correct (audio_inputs : List AudioInput) (total : ℚ)
    (_hne : audio_inputs ≠ []) :
    (load_audio_clips audio_inputs total).length = audio_inputs.length ∧
    ∀ index : ℕ, ∀ h : index < audio_inputs.length,
      ∃ c : AudioClip,
        (load_audio_clips audio_inputs total)[index]? = some c ∧
        c.start = (audio_inputs.get ⟨index, h⟩).start_time ∧
        some c.duration = calculate_audio_duration index audio_inputs total := by
  refine ⟨load_audio_clips_length audio_inputs total, ?_⟩
  intro index h
  refine ⟨⟨(audio_inputs.get ⟨index, h⟩).path, (audio_inputs.get ⟨index, h⟩).start_time,
      (calculate_audio_duration index audio_inputs total).getD 0⟩, ?_, rfl, ?_⟩
  · unfold load_audio_clips
    rw [List.getElem?_map, List.getElem?_range h]
    simp [List.getElem?_eq_getElem h, List.get_eq_getElem]
  · rw [calculate_audio_duration_eq audio_inputs index total h]
    simp

/-- Witness for C4: the theorem applied at a concrete input list and
total, its hypotheses discharged there. -/
theorem load_audio_clips_correct_witness :
    ∃ c : AudioClip,
      (load_audio_clips [⟨"a0", 3, some 2⟩] 7)[0]? = some c ∧
      c.start = 3 ∧ some c.duration = calculate_audio_duration 0 [⟨"a0", 3, some 2⟩] 7 := by
  have h := (load_audio_clips_correct [⟨"a0", 3, some 2⟩] 7 (by decide)).2 0 (by decide)
  simpa using h

/-- The rescaling arithmetic never rounds below zero. -/
theorem rescale_round_nonneg (d : ImageData) (target_height : ℕ) :
    0 ≤ round (((d.width : ℚ) * target_height) / (d.height : ℚ)) := by
  rw [round_eq]
  apply Int.le_floor.mpr
  push_cast
  positivity

/-- C2: for every image file with dimensions `d` and every target height,
`rescale_image` returns an image whose height is the target height and
whose width is the original width scaled by the height ratio, rounded to
the nearest integer; the result depends only on the content of the file
read (no side effects beyond the read). -/
theorem rescale_image_correct (fs : MediaFS) (path : String) (d : ImageData)
    (target_height : ℕ)
    (himg : fs.files path = some (MediaFile.image d)) :
    (∃ result : ImageData,
        rescale_image fs path target_height = .ok result ∧
        result.height = target_height ∧
        (result.width : ℤ) = round (((d.width : ℚ) * target_height) / (d.height : ℚ)))
    ∧ ∀ fs2 : MediaFS, fs2.files path = some (MediaFile.image d) →
        rescale_image fs2 path target_height = rescale_image fs path target_height := by
  constructor
  · refine ⟨rescale_dims d target_height, ?_, rfl, ?_⟩
    · unfold rescale_image
      rw [himg]
    · exact Int.toNat_of_nonneg (rescale_round_nonneg d target_height)
  · intro fs2 h2
    unfold rescale_image
    rw [himg, h2]

/-- Witness for C2: the theorem applied at the sample filesystem's
200×100 image rescaled to height 200 (yielding width 400). -/
theorem rescale_image_correct_witness :
    (∃ result : ImageData,
        rescale_image sample_fs "image0.png" 200 = .ok result ∧
        result.height = 200 ∧
        (result.width : ℤ) =
          round ((((200 : ℕ) : ℚ) * (200 : ℕ)) / (((100 : ℕ)) : ℚ)))
    ∧ rescale_image sample_fs "image0.png" 200 = .ok ⟨400, 200⟩ := by
  refine ⟨(rescale_image_correct sample_fs "image0.png" ⟨200, 100⟩ 200 (by decide)).1, ?_⟩
  show Except.ok (rescale_dims ⟨200, 100⟩ 200) = _
  unfold rescale_dims
  norm_num [round_eq]
  rfl

/-- C3: each composition entry point, given its empty required list,
returns the invalid-argument error with an empty I/O trace — the error is
raised before any I/O and no output file is written at the output path. -/
theorem empty_inputs_error (fs : MediaFS) (base_video_path output_path : String) :
    add_image_clips_to_video fs base_video_path [] output_path =
      ([], .error .noImageInputs) ∧
    concatenate_video_clips fs [] output_path = ([], .error .noVideoInputs) ∧
    add_audio_clips_to_video fs base_video_path [] output_path =
      ([], .error .noAudioInputs) ∧
    IOEvent.writeFile output_path ∉
      (add_image_clips_to_video fs base_video_path [] output_path).1 ∧
    IOEvent.writeFile output_path ∉ (concatenate_video_clips fs [] output_path).1 ∧
    IOEvent.writeFile output_path ∉
      (add_audio_clips_to_video fs base_video_path [] output_path).1 := by
  refine ⟨rfl, rfl, rfl, ?_, ?_, ?_⟩ <;>
    simp [add_image_clips_to_video, concatenate_video_clips, add_audio_clips_to_video]

/-- Loading a single overlay clip from an existing image, unfolded. -/
theorem load_image_clip_eq (fs : MediaFS) (video_duration : ℚ) (input : ImageInput)
    (d : ImageData) (himg : fs.files input.path = some (MediaFile.image d)) :
    load_image_clip fs video_duration input =
      .ok { image := match input.height with
              | some target => rescale_dims d target
              | none => d
            position := input.position
            start := 0
            duration := input.duration.getD video_duration } := by
  unfold load_image_clip
  rw [himg]

/-- C5: an image overlay descriptor with an explicit duration — zero or
near zero included — still succeeds: `add_image_clips_to_video` takes no
error branch for it, produces the overlay clip carrying that duration
(the backend renders it as at least one frame), and writes the output. -/
theorem add_image_clips_zero_duration_succeeds (fs : MediaFS)
    (base_video_path output_path : String) (video_duration dur : ℚ)
    (input : ImageInput) (d : ImageData)
    (hbase : fs.files base_video_path = some (MediaFile.video video_duration))
    (himg : fs.files input.path = some (MediaFile.image d))
    (hdur : input.duration = some dur) :
    ∃ clip : OverlayClip,
      add_image_clips_to_video fs base_video_path [input] output_path =
        ([.readFile base_video_path, .readFile input.path, .writeFile output_path],
         .ok [clip]) ∧
      clip.duration = dur ∧ clip.start = 0 := by
  refine ⟨{ image := match input.height with
              | some target => rescale_dims d target
              | none => d
            position := input.position
            start := 0
            duration := dur }, ?_, rfl, rfl⟩
  have h1 := load_image_clip_eq fs video_duration input d himg
  rw [hdur] at h1
  have h2 : load_image_clips fs video_duration [input] =
      ([.readFile input.path],
       .ok [{ image := match input.height with
                | some target => rescale_dims d target
                | none => d
              position := input.position
              start := 0
              duration := dur }]) := by
    unfold load_image_clips
    rw [h1]
    rfl
  unfold add_image_clips_to_video
  rw [hbase]
  simp [h2]

/-- Witness for C5: the theorem applied at the sample filesystem with a
descriptor of duration 1/100, its hypotheses discharged there. -/
theorem add_image_clips_zero_duration_succeeds_witness :
    ∃ clip : OverlayClip,
      add_image_clips_to_video sample_fs "base.mp4"
          [⟨"image0.png", .anchors .right .bottom, some (1 / 100), none⟩] "out.mp4" =
        ([.readFile "base.mp4", .readFile "image0.png", .writeFile "out.mp4"],
         .ok [clip]) ∧
      clip.duration = 1 / 100 ∧ clip.start = 0 := by
  exact add_image_clips_zero_duration_succeeds sample_fs "base.mp4" "out.mp4" 5 (1 / 100)
    ⟨"image0.png", .anchors .right .bottom, some (1 / 100), none⟩ ⟨200, 100⟩
    (by decide) (by decide) rfl

/-- Every clip produced by `load_audio_clips` takes its start offset from
one of the input descriptors. -/
theorem load_audio_clips_start_mem (audio_inputs : List AudioInput) (total : ℚ)
    (c : AudioClip) (hc : c ∈ load_audio_clips audio_inputs total) :
    ∃ a ∈ audio_inputs, c.start = a.start_time := by
  unfold load_audio_clips at hc
  rw [List.mem_map] at hc
  obtain ⟨i, hi, hfc⟩ := hc
  rw [List.mem_range] at hi
  refine ⟨audio_inputs.get ⟨i, hi⟩, List.get_mem audio_inputs i hi, ?_⟩
  rw [← hfc]
  simp [List.getElem?_eq_getElem hi, List.get_eq_getElem]

/-- C9: when a composition call accepts audio descriptors that satisfy the
descriptor invariant — start time within `[0, output_duration)` where the
output duration is the base video's duration — every audio clip it places
on the output timeline starts within `[0, output_duration)`; a start time
outside this interval violates `audio_start_time_invariant`. -/
theorem audio_descriptor_invariant (fs : MediaFS)
    (base_video_path output_path : String) (audio_inputs : List AudioInput)
    (total_output_duration : ℚ) (clips : List AudioClip)
    (hbase : fs.files base_video_path = some (MediaFile.video total_output_duration))
    (hok : (add_audio_clips_to_video fs base_video_path audio_inputs output_path).2 =
      .ok clips)
    (hinv : ∀ a ∈ audio_inputs, audio_start_time_invariant total_output_duration a) :
    ∀ c ∈ clips, 0 ≤ c.start ∧ c.start < total_output_duration := by
  intro c hc
  have hclips : clips = load_audio_clips audio_inputs total_output_duration := by
    unfold add_audio_clips_to_video at hok
    by_cases he : audio_inputs.isEmpty
    · rw [if_pos he] at hok
      simp at hok
    · rw [if_neg he, hbase] at hok
      rcases hca : check_audio_inputs fs audio_inputs with ⟨tr, res⟩
      rw [hca] at hok
      cases res with
      | ok u => simpa using hok.symm
      | error e => simp at hok
  obtain ⟨a, ha, hstart⟩ :=
    load_audio_clips_start_mem audio_inputs total_output_duration c (hclips ▸ hc)
  rw [hstart]
  exact hinv a ha

/-- Witness for C9: the theorem applied at the sample filesystem and the
two test descriptors (start times 0 and 3 over a 5-second base video),
its hypotheses discharged there, at the first produced clip. -/
theorem audio_descriptor_invariant_witness :
    0 ≤ (⟨"a0.mp3", 0, 3⟩ : AudioClip).start ∧
      (⟨"a0.mp3", 0, 3⟩ : AudioClip).start < 5 := by
  have hload : load_audio_clips [⟨"a0.mp3", 0, none⟩, ⟨"a1.mp3", 3, none⟩] 5 =
      [⟨"a0.mp3", 0, 3⟩, ⟨"a1.mp3", 3, 2⟩] := by
    simp [load_audio_clips, calculate_audio_duration, List.range_succ]
    norm_num
  refine audio_descriptor_invariant sample_fs "base.mp4" "out.mp4"
    [⟨"a0.mp3", 0, none⟩, ⟨"a1.mp3", 3, none⟩] 5
    [⟨"a0.mp3", 0, 3⟩, ⟨"a1.mp3", 3, 2⟩]
    (by decide) ?_ ?_ ⟨"a0.mp3", 0, 3⟩ (by simp)
  · show (Except.ok
        (load_audio_clips [⟨"a0.mp3", 0, none⟩, ⟨"a1.mp3", 3, none⟩] 5) :
        Except VideoError (List AudioClip)) = _
    rw [hload]
  · intro a ha
    fin_cases ha <;> constructor <;> norm_num [audio_start_time_invariant]

end VideoEditing

namespace AssetModels

/-- The index of the last occurrence of `c` in the character list, if
any — `str.rfind(c)` restricted to a found result. -/
def lastIdxOf (c : Char) : List Char → Option ℕ
  | [] => none
  | x :: xs =>
      match lastIdxOf c xs with
      | some i => some (i + 1)
      | none => if x = c then some 0 else none

/-- Embedding of `os.path.splitext` (posix): find the last path separator
and the last dot; when the last dot comes after the last separator and at
least one character strictly between the separator and the dot is not a
dot (leading dots of the basename never start an extension), split at the
dot; otherwise the extension is empty.  `-1` is the not-found sentinel, as
in the library source. -/
def os_path_splitext (p : String) : String × String :=
  let l := p.data
  let sepIndex : ℤ := match lastIdxOf '/' l with
    | some i => (i : ℤ)
    | none => -1
  let dotIndex : ℤ := match lastIdxOf '.' l with
    | some i => (i : ℤ)
    | none => -1
  if sepIndex < dotIndex then
    let start := (sepIndex + 1).toNat
    let dotN := dotIndex.toNat
    if (List.range (dotN - start)).any (fun k => l.get? (start + k) != some '.') then
      (⟨l.take dotN⟩, ⟨l.drop dotN⟩)
    else (p, "")
  else (p, "")

/-- Embedding of `str.lower()`: lowercase every character. -/
def str_lower (s : String) : String :=
  ⟨s.data.map Char.toLower⟩

/-- `ImageUploadInput` from `models/asset_models.py`: the uploaded file is
represented by its filename (the only attribute of the `UploadFile` the
verified code inspects); `source` by its string value. -/
structure ImageUploadInput where
  filename : String
  source : String
  session_id : Option String := none
  image_name : Option String := none
  context : Option String := none
  image_id : String
deriving DecidableEq

/-- The body of `ImageUploadInput.validate_image_type` from
`models/asset_models.py` (lines 50–54): split the extension off the
filename, lowercase it, and reject the input with
`ValueError('Invalid image type')` when it is not in the allow-list.
`allowed_image_extensions` stands for the collaborator constant
`constants.ALLOWED_IMAGE_EXTENSIONS`, whose module is not part of the
visible sources.  Note this function is dead code in the program: see
`mk_image_upload_input`. -/
def validate_image_type (allowed_image_extensions : List String)
    (filename : String) : Except String Unit :=
  let extension := (os_path_splitext filename).2
  if str_lower extension ∈ allowed_image_extensions then .ok ()
  else .error "Invalid image type"

/-- Pydantic construction of an `ImageUploadInput`, as the program
actually behaves.  The source stacks `@classmethod` above
`@pydantic.field_validator('image')` (`models/asset_models.py` lines
48–49); pydantic v2 collects validators by scanning the class namespace
for descriptor proxies and silently skips a classmethod-wrapped proxy, so
`validate_image_type` is never registered and construction performs no
extension check: it always succeeds with the given field values. -/
def mk_image_upload_input (filename source : String)
    (session_id image_name context : Option String) (image_id : String) :
    ImageUploadInput :=
  { filename, source, session_id, image_name, context, image_id }

/-- `ImageUploadInput.get_file_extension` from `models/asset_models.py`:
`os.path.splitext(self.image.filename)[1].lower()` — the extension with
its leading dot, lowercased, empty when there is none. -/
def ImageUploadInput.get_file_extension (input : ImageUploadInput) : String :=
  str_lower (os_path_splitext input.filename).2

/-- `data_models.Image`, the Firestore image metadata record, as consumed
by the visible sources (`date_created` abstracted to an integer
timestamp). -/
structure Image where
  bucket_name : String
  file_path : String
  file_name : String
  original_file_name : String
  full_gcs_path : String
  source : String
  image_name : Option String := none
  context : Option String := none
  date_created : ℤ
deriving DecidableEq

/-- `ImageMetadataResult` from `models/asset_models.py`: the metadata
record plus a signed URL, which defaults to the empty string. -/
structure ImageMetadataResult where
  bucket_name : String
  file_path : String
  file_name : String
  original_file_name : String
  full_gcs_path : String
  source : String
  image_name : Option String := none
  context : Option String := none
  date_created : ℤ
  signed_url : String := ""
deriving DecidableEq

/-- `ImageMetadataResult.generate_signed_url` from
`models/asset_models.py`: sets `signed_url` from the storage
collaborator's `get_signed_url_from_gcs(bucket_name, file_path)`; the
collaborator is passed in, mirroring the source's dependency-injection
parameter. -/
def ImageMetadataResult.generate_signed_url
    (get_signed_url_from_gcs : String → String → String)
    (r : ImageMetadataResult) : ImageMetadataResult :=
  { r with signed_url := get_signed_url_from_gcs r.bucket_name r.file_path }

end AssetModels

namespace AssetUtils

/-- The configuration the visible sources read from `settings.EnvSettings`. -/
structure EnvSettings where
  use_mocks : Bool
  google_cloud_storage_bucket_name : String
  firestore_db_name : String

/-- A storage side effect of `upload_image_asset`: a blob write to cloud
storage or a metadata-record write to the document store. -/
inductive StorageEvent where
  | gcsWrite (bucket_name : String) (file_name : String)
  | firestoreCreate (collection_name : String) (document_id : String)
      (data : AssetModels.Image)
deriving DecidableEq

/-- `upload_image_asset` from `components/asset_utils.py`: in mock mode,
skip both writes and return the input's `image_id` verbatim; otherwise
write the blob to `{images_storage_path}/{image_id}{extension}` in the
configured bucket, create the metadata document keyed by `image_id`, and
return the created document's id.  The collaborator constants
`constants.StoragePaths.IMAGES` and `constants.FirestoreCollections.IMAGES`
are parameters (`images_storage_path`, `images_collection`); the record's
creation timestamp is the explicit clock value `now`.  The returned trace
lists the writes performed, in order. -/
def upload_image_asset (env_settings : EnvSettings)
    (images_storage_path images_collection : String) (now : ℤ)
    (input_data : AssetModels.ImageUploadInput) :
    List StorageEvent × String :=
  if env_settings.use_mocks then
    ([], input_data.image_id)
  else
    let gcs_file_name := input_data.image_id ++ input_data.get_file_extension
    let gcs_file_path := images_storage_path ++ "/" ++ gcs_file_name
    let full_gcs_file_path :=
      "gs://" ++ env_settings.google_cloud_storage_bucket_name ++ "/" ++ gcs_file_path
    let image_data : AssetModels.Image :=
      { bucket_name := env_settings.google_cloud_storage_bucket_name
        file_path := gcs_file_path
        file_name := gcs_file_name
        original_file_name := input_data.filename
        full_gcs_path := full_gcs_file_path
        source := input_data.source
        image_name := input_data.image_name
        context := input_data.context
        date_created := now }
    ([.gcsWrite env_settings.google_cloud_storage_bucket_name gcs_file_path,
      .firestoreCreate images_collection input_data.image_id image_data],
     input_data.image_id)

/-- `get_image_metadata_with_signed_url` from `components/asset_utils.py`:
in mock mode delegate to the mocks module; otherwise read the metadata
document by id, return `none` when absent, else rebuild the record as an
`ImageMetadataResult` and decorate it with a freshly generated signed URL.
The document-store, storage and mocks collaborators are parameters,
mirroring the source's dependency-injection parameters. -/
def get_image_metadata_with_signed_url (env_settings : EnvSettings)
    (mock_result : String → Option AssetModels.ImageMetadataResult)
    (get_document : String → Option AssetModels.Image)
    (get_signed_url_from_gcs : String → String → String)
    (image_id : String) : Option AssetModels.ImageMetadataResult :=
  if env_settings.use_mocks then
    mock_result image_id
  else
    match get_document image_id with
    | none => none
    | some image_doc =>
        some (AssetModels.ImageMetadataResult.generate_signed_url
          get_signed_url_from_gcs
          { bucket_name := image_doc.bucket_name
            file_path := image_doc.file_path
            file_name := image_doc.file_name
            original_file_name := image_doc.original_file_name
            full_gcs_path := image_doc.full_gcs_path
            source := image_doc.source
            image_name := image_doc.image_name
            context := image_doc.context
            date_created := image_doc.date_created
            signed_url := "" })

end AssetUtils

namespace AssetModels

/-- `lastIdxOf` points at an occurrence of the sought character. -/
theorem lastIdxOf_get? (c : Char) :
    ∀ (l : List Char) (i : ℕ), lastIdxOf c l = some i → l.get? i = some c := by
  intro l
  induction l with
  | nil => intro i h; simp [lastIdxOf] at h
  | cons x xs ih =>
      intro i h
      unfold lastIdxOf at h
      cases hrec : lastIdxOf c xs with
      | some j =>
          rw [hrec] at h
          injection h with h
          subst h
          simpa using ih j hrec
      | none =>
          rw [hrec] at h
          by_cases hx : x = c
          · rw [if_pos hx] at h
            injection h with h
            subst h
            simp [hx]
          · rw [if_neg hx] at h
            exact absurd h (by simp)

/-- A character that does not occur has no last index. -/
theorem lastIdxOf_eq_none (c : Char) :
    ∀ l : List Char, c ∉ l → lastIdxOf c l = none := by
  intro l
  induction l with
  | nil => intro _; rfl
  | cons x xs ih =>
      intro h
      rw [List.mem_cons, not_or] at h
      unfold lastIdxOf
      rw [ih h.2, if_neg (fun hx => h.1 hx.symm)]

/-- The extension returned by `os_path_splitext` is either empty or the
suffix of the input starting at the last dot. -/
theorem os_path_splitext_snd (p : String) :
    (os_path_splitext p).2 = "" ∨
      ∃ i : ℕ, lastIdxOf '.' p.data = some i ∧
        (os_path_splitext p).2 = ⟨p.data.drop i⟩ := by
  unfold os_path_splitext
  cases hdot : lastIdxOf '.' p.data with
  | none =>
      left
      cases hsep : lastIdxOf '/' p.data with
      | none =>
          simp only [hdot, hsep]
          split
          · omega
          · rfl
      | some s =>
          simp only [hdot, hsep]
          split
          · omega
          · rfl
  | some j =>
      cases hsep : lastIdxOf '/' p.data with
      | none =>
          simp only [hdot, hsep]
          split
          · split
            · right
              exact ⟨j, rfl, by simp⟩
            · left
              rfl
          · omega
      | some s =>
          simp only [hdot, hsep]
          split
          · split
            · right
              exact ⟨j, rfl, by simp⟩
            · left
              rfl
          · left
            rfl

/-- A lowercased extension is empty or keeps its leading dot. -/
theorem get_file_extension_head (input : ImageUploadInput) :
    input.get_file_extension = "" ∨
      input.get_file_extension.data.head? = some '.' := by
  unfold ImageUploadInput.get_file_extension
  rcases os_path_splitext_snd input.filename with h | ⟨i, hi, h⟩
  · left
    rw [h]
    rfl
  · right
    rw [h]
    show ((input.filename.data.drop i).map Char.toLower).head? = some '.'
    rw [List.head?_map, List.head?_drop, ← List.get?_eq_getElem?,
      lastIdxOf_get? '.' input.filename.data i hi]
    rfl

/-- A filename without a dot has an empty extension. -/
theorem get_file_extension_of_no_dot (input : ImageUploadInput)
    (h : '.' ∉ input.filename.data) : input.get_file_extension = "" := by
  unfold ImageUploadInput.get_file_extension os_path_splitext
  simp only [lastIdxOf_eq_none '.' input.filename.data h]
  cases hsep : lastIdxOf '/' input.filename.data with
  | none =>
      simp only [hsep]
      split
      · omega
      · rfl
  | some s =>
      simp only [hsep]
      split
      · omega
      · rfl

end AssetModels

/-- C6 (code bug): the claim fails on the code.  The allow-list check the
source defines (`validate_image_type`) rejects a `.exe` filename, yet
constructing the `ImageUploadInput` with that filename succeeds — the
decorator order `@classmethod` above `@pydantic.field_validator` leaves
the validator unregistered in pydantic v2, so no validation error is
raised at input-construction time and the disallowed file flows on into
`upload_image_asset`, whose non-mock path writes it to storage. -/
theorem mk_image_upload_input_skips_validation :
    AssetModels.validate_image_type [".png", ".jpg", ".jpeg", ".gif"]
      "malware.exe" = .error "Invalid image type" ∧
    AssetModels.mk_image_upload_input "malware.exe" "Brand" none none none "id1" =
      { filename := "malware.exe", source := "Brand", session_id := none,
        image_name := none, context := none, image_id := "id1" } ∧
    (AssetUtils.upload_image_asset ⟨false, "bkt", "db"⟩ "images" "images-coll" 0
        (AssetModels.mk_image_upload_input "malware.exe" "Brand" none none none
          "id1")).1.head? =
      some (.gcsWrite "bkt" "images/id1.exe") := by
  refine ⟨?_, rfl, by decide⟩
  unfold AssetModels.validate_image_type
  rw [if_neg (by decide)]

/-- C7: with mocks disabled, `get_image_metadata_with_signed_url` returns
`none` (not an error) when the document store has no record for the id;
otherwise it returns the stored record with a freshly generated signed
URL and every other field unchanged. -/
theorem get_image_metadata_with_signed_url_correct (bucket_name db_name : String)
    (mock_result : String → Option AssetModels.ImageMetadataResult)
    (get_document : String → Option AssetModels.Image)
    (get_signed_url_from_gcs : String → String → String) (image_id : String) :
    (get_document image_id = none →
      AssetUtils.get_image_metadata_with_signed_url ⟨false, bucket_name, db_name⟩
        mock_result get_document get_signed_url_from_gcs image_id = none) ∧
    (∀ image_doc : AssetModels.Image, get_document image_id = some image_doc →
      AssetUtils.get_image_metadata_with_signed_url ⟨false, bucket_name, db_name⟩
        mock_result get_document get_signed_url_from_gcs image_id =
        some { bucket_name := image_doc.bucket_name
               file_path := image_doc.file_path
               file_name := image_doc.file_name
               original_file_name := image_doc.original_file_name
               full_gcs_path := image_doc.full_gcs_path
               source := image_doc.source
               image_name := image_doc.image_name
               context := image_doc.context
               date_created := image_doc.date_created
               signed_url := get_signed_url_from_gcs image_doc.bucket_name
                 image_doc.file_path }) := by
  constructor
  · intro h
    simp [AssetUtils.get_image_metadata_with_signed_url, h]
  · intro image_doc h
    simp [AssetUtils.get_image_metadata_with_signed_url, h,
      AssetModels.ImageMetadataResult.generate_signed_url]

/-- A sample metadata record for the C7 witness. -/
def sample_image_doc : AssetModels.Image where
  bucket_name := "bkt"
  file_path := "images/abc.png"
  file_name := "abc.png"
  original_file_name := "cat.png"
  full_gcs_path := "gs://bkt/images/abc.png"
  source := "Brand"
  image_name := none
  context := none
  date_created := 0

/-- A sample document store holding only `sample_image_doc` under "img1". -/
def sample_get_document (image_id : String) : Option AssetModels.Image :=
  if image_id = "img1" then some sample_image_doc else none

/-- A sample signed-URL generator. -/
def sample_signer (bucket_name file_name : String) : String :=
  "https://signed/" ++ bucket_name ++ "/" ++ file_name

/-- Witness for C7: the theorem applied at a concrete store — an absent id
yields `none`, a present id yields the record decorated with the signed
URL — with both hypotheses discharged there. -/
theorem get_image_metadata_with_signed_url_correct_witness :
    AssetUtils.get_image_metadata_with_signed_url ⟨false, "bkt", "db"⟩
      (fun _ => none) sample_get_document sample_signer "missing" = none ∧
    AssetUtils.get_image_metadata_with_signed_url ⟨false, "bkt", "db"⟩
      (fun _ => none) sample_get_document sample_signer "img1" =
      some { bucket_name := sample_image_doc.bucket_name
             file_path := sample_image_doc.file_path
             file_name := sample_image_doc.file_name
             original_file_name := sample_image_doc.original_file_name
             full_gcs_path := sample_image_doc.full_gcs_path
             source := sample_image_doc.source
             image_name := sample_image_doc.image_name
             context := sample_image_doc.context
             date_created := sample_image_doc.date_created
             signed_url := sample_signer sample_image_doc.bucket_name
               sample_image_doc.file_path } := by
  constructor
  · exact (get_image_metadata_with_signed_url_correct "bkt" "db" (fun _ => none)
      sample_get_document sample_signer "missing").1 (by decide)
  · exact (get_image_metadata_with_signed_url_correct "bkt" "db" (fun _ => none)
      sample_get_document sample_signer "img1").2 sample_image_doc (by decide)

/-- C8: with the mock-mode switch enabled, `upload_image_asset` performs
no blob-storage write and no document-store write (its storage trace is
empty) and returns the input's `image_id` verbatim. -/
theorem upload_image_asset_mock_mode (bucket_name db_name : String)
    (images_storage_path images_collection : String) (now : ℤ)
    (input_data : AssetModels.ImageUploadInput) :
    AssetUtils.upload_image_asset ⟨true, bucket_name, db_name⟩ images_storage_path
      images_collection now input_data = ([], input_data.image_id) := rfl

/-- C10: `get_file_extension` is the lowercased `os.path.splitext`
extension of the uploaded filename — empty or carrying its leading dot,
and empty whenever the filename has no dot — and the non-mock upload path
uses it verbatim to build the storage object name
`{images_storage_path}/{image_id}{extension}`. -/
theorem get_file_extension_correct (input : AssetModels.ImageUploadInput)
    (bucket_name db_name images_storage_path images_collection : String) (now : ℤ) :
    (input.get_file_extension =
      AssetModels.str_lower (AssetModels.os_path_splitext input.filename).2) ∧
    (input.get_file_extension = "" ∨
      input.get_file_extension.data.head? = some '.') ∧
    ('.' ∉ input.filename.data → input.get_file_extension = "") ∧
    ((AssetUtils.upload_image_asset ⟨false, bucket_name, db_name⟩
        images_storage_path images_collection now input).1.head? =
      some (.gcsWrite bucket_name (images_storage_path ++ "/" ++
        (input.image_id ++ input.get_file_extension)))) := by
  refine ⟨rfl, AssetModels.get_file_extension_head input,
    AssetModels.get_file_extension_of_no_dot input, rfl⟩

/-- Witness for C10: the theorem applied at a concrete uploaded filename
`Photo.PNG`, its hypothesis discharged there; the extension evaluates to
`.png`. -/
theorem get_file_extension_correct_witness :
    ((⟨"Photo.PNG", "Brand", none, none, none, "id7"⟩ :
        AssetModels.ImageUploadInput).get_file_extension = "" ∨
      (⟨"Photo.PNG", "Brand", none, none, none, "id7"⟩ :
        AssetModels.ImageUploadInput).get_file_extension.data.head? = some '.') ∧
    ((AssetUtils.upload_image_asset ⟨false, "bkt", "db"⟩ "images" "images-coll" 0
        ⟨"Photo.PNG", "Brand", none, none, none, "id7"⟩).1.head? =
      some (.gcsWrite "bkt" ("images" ++ "/" ++
        ("id7" ++ (⟨"Photo.PNG", "Brand", none, none, none, "id7"⟩ :
          AssetModels.ImageUploadInput).get_file_extension)))) ∧
    (⟨"Photo.PNG", "Brand", none, none, none, "id7"⟩ :
        AssetModels.ImageUploadInput).get_file_extension = ".png" := by
  refine ⟨(get_file_extension_correct ⟨"Photo.PNG", "Brand", none, none, none, "id7"⟩
      "bkt" "db" "images" "images-coll" 0).2.1,
    (get_file_extension_correct ⟨"Photo.PNG", "Brand", none, none, none, "id7"⟩
      "bkt" "db" "images" "images-coll" 0).2.2.2, by decide⟩
